import Mathlib

/-!
Verification of the video playback pipeline in `src/widgets/src/video.rs`.

This file gives a shallow embedding of the pipeline: the NV12 frame-group
demultiplexer (`Video::handle_event_with`, `Event::VideoStream` branch, and
`split_nv12_data`), the playback ring buffer (`RingBuffer`), the buffer pool
(`VecPool`), the decode scheduler (`should_request_decoding` and the timer
tick branch), and the playback clock (`process_tick`).

Modelling conventions:
- Bytes (`u8`) and machine integers (`u64`, `u32`, `usize`, `u128`) are
  embedded as `Nat`; none of the arithmetic in the modelled code paths can
  overflow the original widths for the inputs the theorems quantify over
  (timestamps and strides are read from 8- and 4-byte fields, so they are
  below 2^64 and 2^32 by construction).
- A Rust panic (out-of-bounds slice indexing, `todo!()`) is modelled by the
  value `none` of an `Option` result; all functions on a panic-free path
  return `some`.
- `Instant` is modelled as a `Nat` of microseconds; `duration_since`
  saturates at zero exactly like `Nat` subtraction.
- The pipeline is single threaded, so the `Rc<RefCell<...>>` wrappers around
  plane buffers are modelled as plain values.
- The floating point expression `(1.0 / frame_rate / 2.0) * 1000.0` only
  feeds the timer interval, which the claims do not measure; it is not
  modelled.  `frame_ts_interval` (`1000000.0 / frame_rate`) and the capacity
  arithmetic of `resize_frames_buffer` are modelled in exact rational
  arithmetic; for every frame rate below 2^50 the `f64` computations in the
  source round to the same integers (0.5 is exact in binary; the relative
  error of the `f64` nearest to 1.2 is below 2^-52, far smaller than the
  distance from any product `n * 1.2` to the nearest integer it could be
  mis-rounded across).
- Ghost fields `acquired` and `released` count calls to `VecPool::acquire`
  and `VecPool::release`; they influence nothing.
-/

/-- `DecodingState` from video.rs (NotStarted is the `#[default]`). -/
inductive DecodingState where
  | NotStarted
  | Idle
  | Decoding
  | Finished
deriving DecidableEq

/-- `VideoFrame`: a demultiplexed frame.  `y_data` and `uv_data` hold packed
`u32` texel values (embedded as `Nat`, always below 2^32 on the modelled
paths), `timestamp_us` the header timestamp in microseconds. -/
structure VideoFrame where
  y_data : List Nat
  uv_data : List Nat
  timestamp_us : Nat
deriving DecidableEq

/-- `RingBuffer` from video.rs: a `VecDeque` of frames (head at the front of
the list), the dead `last_added_index` bookkeeping, and the advisory
`capacity`. -/
structure RingBuffer where
  data : List VideoFrame
  last_added_index : Option Nat
  capacity : Nat
deriving DecidableEq

/-- `RingBuffer::get`: `self.data.pop_front()`.  Note this REMOVES the head
frame; it is not a peek.  The new buffer state is returned alongside the
popped frame. -/
def RingBuffer.get (rb : RingBuffer) : Option (VideoFrame × RingBuffer) :=
  match rb.data with
  | [] => none
  | f :: rest => some (f, { rb with data := rest })

/-- `RingBuffer::push`: unconditional `push_back` plus the `last_added_index`
update.  Capacity is never consulted. -/
def RingBuffer.push (rb : RingBuffer) (frame : VideoFrame) : RingBuffer :=
  { rb with
    data := rb.data ++ [frame]
    last_added_index :=
      match rb.last_added_index with
      | none => some 0
      | some index => some (index + 1) }

/-- Pushes a list of frames in order (left to right). -/
def RingBuffer.pushAll (rb : RingBuffer) (l : List VideoFrame) : RingBuffer :=
  l.foldl RingBuffer.push rb

/-- Repeatedly calls `RingBuffer.get` until it signals empty, collecting the
popped frames in pop order.  The fuel argument of the inner loop is the
current queue length, which bounds the number of successful pops. -/
def RingBuffer.drainLoop : Nat → RingBuffer → List VideoFrame
  | 0, _ => []
  | fuel + 1, rb =>
    match rb.get with
    | none => []
    | some (f, rb1) => f :: RingBuffer.drainLoop fuel rb1

def RingBuffer.drain (rb : RingBuffer) : List VideoFrame :=
  RingBuffer.drainLoop rb.data.length rb

/-- `VecPool::acquire`.  In the source, a popped vector is `clear`ed and
`resize`d with zero fill, so both the pool-hit and the pool-miss branch
return a zero vector of exactly `size` elements; the pool loses its top
element when it is nonempty (`List.tail [] = []` matches the empty-pool
branch, which leaves the pool empty). -/
def acquire (pool : List (List Nat)) (size : Nat) : List Nat × List (List Nat) :=
  (List.replicate size 0, pool.tail)

/-- `VecPool::release`: pushes the vector onto the pool stack (stack top is
the list head in this embedding). -/
def release (pool : List (List Nat)) (v : List Nat) : List (List Nat) :=
  v :: pool

/-- Big-endian byte-list to integer conversion
(`u64::from_be_bytes` / `u32::from_be_bytes`). -/
def beBytes (l : List Nat) : Nat :=
  l.foldl (fun acc b => acc * 256 + b) 0

/-- Rust slice `data[start..start+len]`: panics (`none`) unless the end is
within bounds. -/
def sliceChecked (data : List Nat) (start len : Nat) : Option (List Nat) :=
  if start + len ≤ data.length then some ((data.drop start).take len) else none

/-- The `chunks(2)` loop of `split_nv12_data`: for each pair, pack
`u << 16 | v << 8 | 0xFF000000`.  A trailing singleton chunk makes `chunk[1]`
panic (`none`), exactly like the source on an odd row length. -/
def chunkPairs : List Nat → Option (List Nat)
  | [] => some []
  | [_] => none
  | u :: v :: rest =>
    match chunkPairs rest with
    | none => none
    | some l => some (((u <<< 16) ||| ((v <<< 8) ||| 0xFF000000)) :: l)

/-- The luma row loop of `split_nv12_data`: rows `row, row+1, ...` (the
`count` argument counts the remaining rows), each row being the slice
`data[row*stride .. row*stride + w]`. -/
def lumaRows (data : List Nat) (w stride : Nat) : Nat → Nat → Option (List Nat)
  | 0, _ => some []
  | count + 1, row =>
    match sliceChecked data (row * stride) w with
    | none => none
    | some r =>
      match lumaRows data w stride count (row + 1) with
      | none => none
      | some rest => some (r ++ rest)

/-- The chroma row loop of `split_nv12_data`: rows start at `base`
(`y_stride * height`), row `row` is `data[base + row*stride .. + w]`, and each
row is converted by the `chunks(2)` loop. -/
def uvRows (data : List Nat) (w stride base : Nat) : Nat → Nat → Option (List Nat)
  | 0, _ => some []
  | count + 1, row =>
    match sliceChecked data (base + row * stride) w with
    | none => none
    | some r =>
      match chunkPairs r with
      | none => none
      | some vals =>
        match uvRows data w stride base count (row + 1) with
        | none => none
        | some rest => some (vals ++ rest)

/-- `split_nv12_data` from video.rs.  If either output buffer is smaller than
the computed plane size the function logs and returns with both buffers
untouched (the early-return guard).  Otherwise it overwrites the first
`width*height` elements of `y_data` with `0xFFFFFF00 | y` for each luma byte
and the first `(height/2)*(width/2)` elements of `uv_data` with the packed
U/V values; elements beyond the written prefix keep their old contents.
A `none` result models an out-of-bounds slice panic inside the loops. -/
def split_nv12_data (data : List Nat) (width height y_stride uv_stride : Nat)
    (y0 uv0 : List Nat) : Option (List Nat × List Nat) :=
  if y0.length < width * height ∨ uv0.length < (width / 2) * (height / 2) then
    some (y0, uv0)
  else
    match lumaRows data width y_stride height 0 with
    | none => none
    | some ybytes =>
      let yvals := ybytes.map (fun y => 0xFFFFFF00 ||| y)
      match uvRows data width uv_stride (y_stride * height) (height / 2) 0 with
      | none => none
      | some uvvals =>
        some (yvals ++ y0.drop yvals.length, uvvals ++ uv0.drop uvvals.length)

/-- The `Event::VideoStream` parse loop of `Video::handle_event_with`.
Each iteration reads the 20-byte header (8-byte big-endian timestamp, 4-byte
strides and payload length), slices out the payload, acquires the two plane
buffers from the pool, converts with `split_nv12_data`, and pushes the frame;
the cursor advances past the payload.  The fuel argument is the number of
bytes left at the call of `demux`, which strictly bounds the number of loop
iterations (each iteration consumes at least 20 bytes).  `none` models a
panic: a slice reaching past the end of the stream, or a panic inside
`split_nv12_data`. -/
def demuxLoop (w h : Nat) :
    Nat → List Nat → RingBuffer → List (List Nat) → Nat →
    Option (RingBuffer × List (List Nat) × Nat)
  | _, [], rb, pool, acq => some (rb, pool, acq)
  | 0, _ :: _, _, _, _ => none
  | fuel + 1, bytes@(_ :: _), rb, pool, acq =>
    if 20 ≤ bytes.length ∧ 20 + beBytes ((bytes.drop 16).take 4) ≤ bytes.length then
      match split_nv12_data ((bytes.drop 20).take (beBytes ((bytes.drop 16).take 4)))
          w h (beBytes ((bytes.drop 8).take 4)) (beBytes ((bytes.drop 12).take 4))
          (acquire pool (w * h)).1
          (acquire (acquire pool (w * h)).2 ((w / 2) * (h / 2))).1 with
      | none => none
      | some (y, uv) =>
        demuxLoop w h fuel (bytes.drop (20 + beBytes ((bytes.drop 16).take 4)))
          (rb.push { y_data := y, uv_data := uv, timestamp_us := beBytes (bytes.take 8) })
          (acquire (acquire pool (w * h)).2 ((w / 2) * (h / 2))).2
          (acq + 2)
    else none

/-- The frame demultiplexer: the `Event::VideoStream` branch, operating on the
widget dimensions `w`, `h`, the incoming byte stream, the current ring buffer
and buffer pool.  Returns the updated ring buffer, the updated pool and the
number of `VecPool::acquire` calls made, or `none` when the source would
panic. -/
def demux (w h : Nat) (bytes : List Nat) (rb : RingBuffer)
    (pool : List (List Nat)) (acq : Nat) :
    Option (RingBuffer × List (List Nat) × Nat) :=
  demuxLoop w h bytes.length bytes rb pool acq

/-- Claim C1: a single well-formed frame group (timestamp 1000000, strides 4,
payload length 12 = 4*2 + 4*2/2) for a 4 by 2 video demultiplexes to exactly
one frame: the timestamp is taken verbatim from the header, the luma plane is
the 8 payload luma bytes each packed into the low byte of `0xFFFFFF00 | y`
(fill pattern `0xFFFFFF` in the upper three bytes), and the chroma plane is
the trailing two U/V byte pairs packed as `u << 16 | v << 8 | 0xFF000000`
(U and V in fixed byte positions, the remaining bits the fixed `0xFF` alpha).
The pool is untouched and two buffers were acquired. -/
theorem c1_byte_exact_parse (b0 b1 b2 b3 b4 b5 b6 b7 b8 b9 b10 b11 : Nat) :
    demux 4 2
      ([0, 0, 0, 0, 0, 15, 66, 64] ++ [0, 0, 0, 4] ++ [0, 0, 0, 4] ++ [0, 0, 0, 12] ++
        [b0, b1, b2, b3, b4, b5, b6, b7, b8, b9, b10, b11])
      { data := [], last_added_index := none, capacity := 0 } [] 0 =
    some
      ({ data := [{
             y_data := [0xFFFFFF00 ||| b0, 0xFFFFFF00 ||| b1, 0xFFFFFF00 ||| b2,
                        0xFFFFFF00 ||| b3, 0xFFFFFF00 ||| b4, 0xFFFFFF00 ||| b5,
                        0xFFFFFF00 ||| b6, 0xFFFFFF00 ||| b7],
             uv_data := [(b8 <<< 16) ||| ((b9 <<< 8) ||| 0xFF000000),
                         (b10 <<< 16) ||| ((b11 <<< 8) ||| 0xFF000000)],
             timestamp_us := 1000000 }],
         last_added_index := some 0, capacity := 0 }, [], 2) := by
  rfl

/-- The per-group body of the `Event::VideoStream` loop (video.rs lines
288-309) with the two plane buffers as explicit parameters ("the buffers
provided" in the words of the spec): convert with `split_nv12_data`, then
push a `VideoFrame` built from the (possibly untouched) buffers onto the
ring buffer.  Note the push is unconditional: it happens whether or not
`split_nv12_data` took its size-mismatch early return. -/
def process_frame_group (pixel_data : List Nat) (w h y_stride uv_stride ts : Nat)
    (y0 uv0 : List Nat) (rb : RingBuffer) : Option RingBuffer :=
  match split_nv12_data pixel_data w h y_stride uv_stride y0 uv0 with
  | none => none
  | some (y, uv) => some (rb.push { y_data := y, uv_data := uv, timestamp_us := ts })

/-- `const CHUNK_DURATION_US: u128 = 1_000_000 / 2;` -/
def CHUNK_DURATION_US : Nat := 1000000 / 2

/-- `Video::resize_frames_buffer` arithmetic: estimated frames per chunk is
`ceil(frame_rate * chunk_duration_seconds)`, the capacity is
`ceil(estimated * 1.2)`.  The two `f64` ceilings are modelled in exact
rational arithmetic (see the header note for why this agrees with `f64`). -/
def resize_capacity (frame_rate : Nat) : Nat :=
  (Int.ceil ((Int.ceil ((frame_rate : ℚ) * ((CHUNK_DURATION_US : ℚ) / 1000000)) : ℚ)
    * (1.2 : ℚ))).toNat

/-- Modelled from the spec: the capacity target formula the spec states,
`ceil(frame_rate * chunk_duration_seconds * 1.2)` with a single ceiling.
This is the refinement target to compare `resize_capacity` against. -/
def spec_capacity (frame_rate : Nat) : Nat :=
  (Int.ceil ((frame_rate : ℚ) * ((CHUNK_DURATION_US : ℚ) / 1000000) * (1.2 : ℚ))).toNat

/-- `(self.current_frame_ts as f64 + self.frame_ts_interval).ceil() as u128`,
with the interval carried as an exact rational. -/
def nextFrameTs (ts : Nat) (interval : ℚ) : Nat :=
  (Int.ceil ((ts : ℚ) + interval)).toNat

/-- The widget state of `Video` restricted to the fields the pipeline logic
reads or writes (drawing handles, layout and the unused
`current_frame_index`, `decoding_threshold` and `latest_chunk` fields are
omitted).  `pool` is the `VecPool`; `acquired`/`released` are ghost call
counters. -/
structure VideoState where
  width : Nat
  height : Nat
  total_duration : Nat
  original_frame_rate : Nat
  is_looping : Bool
  frames_buffer : RingBuffer
  current_frame_ts : Nat
  frame_ts_interval : ℚ
  last_update : Nat
  accumulated_time : Nat
  playback_finished : Bool
  decoding_state : DecodingState
  y_texture : Option (List Nat)
  uv_texture : Option (List Nat)
  pool : List (List Nat)
  acquired : Nat
  released : Nat

/-- `Video::update_textures`: lazily creates the two textures (a fresh
texture holds an empty image buffer), swaps the frame planes into the
textures (`swap_image_u32`), and releases the swapped-out previous texture
buffers to the pool (`vec_pool.release(y_data.replace(Vec::new()))`), luma
first, then chroma. -/
def update_textures (s : VideoState) (y uv : List Nat) : VideoState :=
  let ytex := s.y_texture.getD []
  let uvtex := s.uv_texture.getD []
  { s with
    y_texture := some y
    uv_texture := some uv
    pool := release (release s.pool ytex) uvtex
    released := s.released + 2 }

/-- `Video::process_tick`.  Adds the wall-clock time elapsed since
`last_update` to `accumulated_time`, then POPS the head frame
(`frames_buffer.get()` is `pop_front`).  If the queue was empty nothing else
happens (in particular `last_update` is NOT advanced).  If the popped frame
is due (`accumulated_time >= timestamp_us`), its planes are handed to the
textures and the end-of-stream policy runs; if it is not yet due the popped
frame is simply dropped.  In both of those cases `last_update := now`.
The second component is the frame handed to the presentation surface this
tick, if any. -/
def process_tick (s : VideoState) (now : Nat) : VideoState × Option VideoFrame :=
  let s1 := { s with accumulated_time := s.accumulated_time + (now - s.last_update) }
  match s1.frames_buffer.get with
  | none => (s1, none)
  | some (f, rb1) =>
    let s2 := { s1 with frames_buffer := rb1 }
    if f.timestamp_us ≤ s2.accumulated_time then
      let s3 := update_textures s2 f.y_data f.uv_data
      let s4 :=
        if s3.total_duration ≤ s3.current_frame_ts then
          let s3a :=
            if s3.is_looping then { s3 with current_frame_ts := 0 }
            else { s3 with playback_finished := true }
          { s3a with accumulated_time := s3a.accumulated_time - f.timestamp_us }
        else
          { s3 with current_frame_ts := nextFrameTs s3.current_frame_ts s3.frame_ts_interval }
      ({ s4 with last_update := now }, some f)
    else
      ({ s2 with last_update := now }, none)

/-- `Video::should_request_decoding`.  The `NotStarted` and `Idle` states hit
the `todo!()` arm, modelled as `none`. -/
def should_request_decoding (s : VideoState) : Option Bool :=
  match s.decoding_state with
  | DecodingState.Decoding => some false
  | DecodingState.Finished => some (decide (s.frames_buffer.data.length < 10))
  | _ => none

/-- The timer-tick branch of `Video::handle_event_with`: the timer is
re-armed (not otherwise modelled), `process_tick` runs when the state is
`Finished` or is `Decoding` with more than 5 buffered frames, then
`should_request_decoding` may issue one `decode_next_video_chunk` request
and set the state to `Decoding`.  Returns the new state, the frame handed
off this tick (if any) and whether a chunk request was issued; `none` models
the `todo!()` panic. -/
def handle_tick (s : VideoState) (now : Nat) :
    Option (VideoState × Option VideoFrame × Bool) :=
  let step :=
    if s.decoding_state = DecodingState.Finished ∨
        (s.decoding_state = DecodingState.Decoding ∧ 5 < s.frames_buffer.data.length) then
      process_tick s now
    else (s, none)
  match should_request_decoding step.1 with
  | none => none
  | some true => some ({ step.1 with decoding_state := DecodingState.Decoding }, step.2, true)
  | some false => some (step.1, step.2, false)

/-- The `Event::VideoDecodingInitialized` branch: stores the metadata,
computes `frame_ts_interval = 1000000.0 / frame_rate`, resizes the frames
buffer capacity, requests the first chunk and transitions to `Decoding`
(the timer start and the chunk request itself carry no modelled state). -/
def handle_decoding_init (s : VideoState) (w h frame_rate duration : Nat) : VideoState :=
  { s with
    width := w
    height := h
    original_frame_rate := frame_rate
    total_duration := duration
    frame_ts_interval := 1000000 / (frame_rate : ℚ)
    frames_buffer := { s.frames_buffer with capacity := resize_capacity frame_rate }
    decoding_state := DecodingState.Decoding }

/-- The `Event::VideoChunkDecoded` branch: transition to `Finished`
(and request frame materialization, which carries no modelled state). -/
def handle_chunk_decoded (s : VideoState) : VideoState :=
  { s with decoding_state := DecodingState.Finished }

/-- The `Event::VideoStream` branch: run the demultiplexer loop against the
widget dimensions, ring buffer and pool. -/
def handle_video_stream (s : VideoState) (bytes : List Nat) : Option VideoState :=
  match demux s.width s.height bytes s.frames_buffer s.pool 0 with
  | none => none
  | some (rb, pool, acq) =>
    some { s with frames_buffer := rb, pool := pool, acquired := s.acquired + acq }

/-- A concrete baseline widget state used by the witness and counterexample
theorems below. -/
def baseState : VideoState :=
  { width := 4
    height := 2
    total_duration := 1000000000
    original_frame_rate := 2
    is_looping := false
    frames_buffer := { data := [], last_added_index := none, capacity := 0 }
    current_frame_ts := 0
    frame_ts_interval := 500000
    last_update := 0
    accumulated_time := 0
    playback_finished := false
    decoding_state := DecodingState.Finished
    y_texture := none
    uv_texture := none
    pool := []
    acquired := 0
    released := 0 }

/-- Helper: `process_tick` never changes the decoding state. -/
theorem process_tick_decoding_state (s : VideoState) (now : Nat) :
    (process_tick s now).1.decoding_state = s.decoding_state := by
  unfold process_tick RingBuffer.get update_textures
  cases h : s.frames_buffer.data with
  | nil => simp [h]
  | cons f rest => simp only [h]; split_ifs <;> simp

/-- Helper: `process_tick` never adds frames to the ring buffer. -/
theorem process_tick_length_le (s : VideoState) (now : Nat) :
    (process_tick s now).1.frames_buffer.data.length ≤ s.frames_buffer.data.length := by
  unfold process_tick RingBuffer.get update_textures
  cases h : s.frames_buffer.data with
  | nil => simp [h]
  | cons f rest => simp only [h]; split_ifs <;> simp [h]

/-- Claim C2, failing input: the decoding state is `Finished` (so the
presentation gating check passes), the ring buffer holds exactly one frame
with timestamp 1000000 microseconds, and the tick arrives at 100
microseconds of accumulated wall-clock time, so the head frame is not yet
due.  The claim (and the spec) say no hand-off occurs AND the head frame
remains queued.  The code indeed performs no hand-off (second component
`none`, `released` still 0), but `RingBuffer::get` is `pop_front`, so the
not-yet-due frame is POPPED AND DROPPED: the ring buffer is empty
afterwards instead of still holding the frame. -/
theorem c2_not_due_frame_dropped :
    (handle_tick
        { baseState with
          frames_buffer :=
            { data := [{ y_data := [1], uv_data := [2], timestamp_us := 1000000 }],
              last_added_index := some 0, capacity := 12 } }
        100).map
      (fun r => (r.2.1, r.1.frames_buffer.data, r.1.released, r.1.pool)) =
    some (none, [], 0, []) := by
  rfl

/-- Claim C5, counterexample: a frame group whose luma buffer is undersized
(length 0 provided, 4*2 = 8 required).  `split_nv12_data` takes its
size-mismatch early return and writes nothing, but the caller still pushes a
`VideoFrame` (holding the untouched buffers) onto the ring buffer: the ring
buffer goes from empty to holding one frame, contradicting the claim that no
frame is emitted for a rejected group. -/
theorem c5_rejected_group_still_pushed :
    process_frame_group [9, 9, 9, 9] 4 2 4 4 777 [] [5, 5]
      { data := [], last_added_index := none, capacity := 0 } =
    some { data := [{ y_data := [], uv_data := [5, 5], timestamp_us := 777 }],
           last_added_index := some 0, capacity := 0 } := by
  rfl

/-- Claim C5, amended: for every frame group whose computed plane sizes
exceed the provided buffer lengths, `split_nv12_data` rejects the group
without writing a single element of either output buffer (both come back
unchanged) and the stream loop continues (no panic), BUT the loop body still
pushes one `VideoFrame` carrying the unwritten buffers onto the ring buffer.
(In the actual pipeline the mismatch is unreachable: `VecPool::acquire`
always returns buffers of exactly the requested plane sizes.) -/
theorem c5_reject_no_write_amended (pixel_data : List Nat)
    (w h y_stride uv_stride ts : Nat) (y0 uv0 : List Nat) (rb : RingBuffer)
    (hsmall : y0.length < w * h ∨ uv0.length < (w / 2) * (h / 2)) :
    process_frame_group pixel_data w h y_stride uv_stride ts y0 uv0 rb =
    some (rb.push { y_data := y0, uv_data := uv0, timestamp_us := ts }) := by
  unfold process_frame_group split_nv12_data
  rw [if_pos hsmall]

/-- Witness for the amended claim C5 at a concrete rejected group. -/
theorem c5_reject_no_write_amended_witness :
    ((0 : Nat) < 4 * 2 ∨ (2 : Nat) < (4 / 2) * (2 / 2)) ∧
    process_frame_group [9, 9, 9, 9] 4 2 4 4 777 [] [5, 5]
      { data := [], last_added_index := none, capacity := 0 } =
    some (RingBuffer.push { data := [], last_added_index := none, capacity := 0 }
      { y_data := [], uv_data := [5, 5], timestamp_us := 777 }) :=
  ⟨Or.inl (by decide),
   c5_reject_no_write_amended [9, 9, 9, 9] 4 2 4 4 777 [] [5, 5] _ (Or.inl (by decide))⟩

/-- Claim C7, failing execution: one well-formed frame group (timestamp
1000000) is demultiplexed — the loop acquires two plane buffers from the
pool — and one tick arrives at 10 microseconds, before the frame is due.
`process_tick` pops the not-yet-due frame and drops it.  At the end of the
execution both ghost counters and the state show the leak: 2 buffers were
acquired, 0 were ever released, the pool is empty, and the ring buffer is
empty, so the two acquired buffers were dropped without re-entering the
pool (and no later event can release them: the frame holding them is gone).
This contradicts the invariant that every acquired buffer re-enters the
pool exactly once. -/
theorem c7_buffers_dropped_without_release :
    ((handle_video_stream baseState
        ([0, 0, 0, 0, 0, 15, 66, 64] ++ [0, 0, 0, 4] ++ [0, 0, 0, 4] ++ [0, 0, 0, 12] ++
          [1, 2, 3, 4, 5, 6, 7, 8, 9, 10, 11, 12])).bind
      (fun s1 => (handle_tick s1 10).map (fun r => r.1))).map
      (fun s2 => (s2.acquired, s2.released, s2.pool, s2.frames_buffer.data)) =
    some (2, 0, [], []) := by
  rfl

/-- Claim C10: on a tick whose presentation step finds the ring buffer
empty, the elapsed wall-clock interval since `last_update` is added to
`accumulated_time`, no frame is handed off, and `last_update` is NOT
advanced — so the next tick that runs the presentation step measures its
elapsed time from the same reference point and adds the interval
`t1 - last_update` a second time (the fourth conjunct: after the two ticks
the counter holds both `t1 - last_update` and `t2 - last_update`, whose
spans overlap on all of `last_update .. t1`). -/
theorem c10_empty_tick_double_counts (s : VideoState) (t1 t2 : Nat)
    (hempty : s.frames_buffer.data = []) :
    (process_tick s t1).1.accumulated_time = s.accumulated_time + (t1 - s.last_update) ∧
    (process_tick s t1).1.last_update = s.last_update ∧
    (process_tick s t1).2 = none ∧
    (process_tick (process_tick s t1).1 t2).1.accumulated_time =
      s.accumulated_time + (t1 - s.last_update) + (t2 - s.last_update) := by
  unfold process_tick RingBuffer.get
  simp [hempty]

/-- Witness for claim C10 at a concrete empty-buffer state. -/
theorem c10_empty_tick_double_counts_witness :
    (process_tick baseState 5).1.accumulated_time =
      baseState.accumulated_time + (5 - baseState.last_update) ∧
    (process_tick baseState 5).1.last_update = baseState.last_update ∧
    (process_tick baseState 5).2 = none ∧
    (process_tick (process_tick baseState 5).1 9).1.accumulated_time =
      baseState.accumulated_time + (5 - baseState.last_update) + (9 - baseState.last_update) :=
  c10_empty_tick_double_counts baseState 5 9 rfl

/-- The state used by the claim C3 counterexample: looping disabled, total
duration 0 (so the target timestamp has already reached the total duration),
decoding state `Finished`, and eleven due frames queued (eleven, so that the
first tick leaves ten frames and `should_request_decoding` does not flip the
state to `Decoding`, keeping the second tick on the presentation path). -/
def c3state : VideoState :=
  { baseState with
    total_duration := 0
    frames_buffer :=
      { data := List.replicate 11 { y_data := [], uv_data := [], timestamp_us := 0 },
        last_added_index := some 10, capacity := 12 } }

/-- Claim C3, counterexample: with looping disabled, the tick at 10
microseconds presents a frame whose target timestamp has reached the total
duration and sets `playback_finished := true` — the session "finishes".  But
`cleanup_decoding` is a no-op (its body is commented out) and
`playback_finished` is never read, so the very next tick at 20 microseconds
performs ANOTHER presentation hand-off (second conjunct: it hands off a
frame), contradicting the claim that no further hand-offs are issued after
the session transitions to finished. -/
theorem c3_presentation_after_finished :
    ((handle_tick c3state 10).map
      (fun r => (r.2.1, r.1.playback_finished)) =
      some (some { y_data := [], uv_data := [], timestamp_us := 0 }, true)) ∧
    (((handle_tick c3state 10).bind (fun r => handle_tick r.1 20)).map
      (fun r => (r.2.1, r.1.playback_finished)) =
      some (some { y_data := [], uv_data := [], timestamp_us := 0 }, true)) := by
  constructor <;> rfl

/-- Claim C3, amended: on the tick that presents a frame whose target
presentation timestamp has reached the total duration: with looping enabled
the target timestamp is reset to 0, the accumulated-time counter is rolled
back by the consumed frame timestamp and the session does not terminate
(`playback_finished` is untouched); with looping disabled the
`playback_finished` flag is set and the accumulated-time counter is rolled
back the same way — but session cleanup is a no-op (`cleanup_decoding` has
an empty body, the decoding state and timer are untouched), and nothing
prevents later ticks from issuing further hand-offs. -/
theorem c3_end_of_stream_amended (s : VideoState) (now : Nat) (f : VideoFrame)
    (rest : List VideoFrame) (hbuf : s.frames_buffer.data = f :: rest)
    (hdue : f.timestamp_us ≤ s.accumulated_time + (now - s.last_update))
    (hdur : s.total_duration ≤ s.current_frame_ts) :
    (process_tick s now).2 = some f ∧
    (process_tick s now).1.frames_buffer.data = rest ∧
    (process_tick s now).1.accumulated_time =
      s.accumulated_time + (now - s.last_update) - f.timestamp_us ∧
    (process_tick s now).1.decoding_state = s.decoding_state ∧
    (s.is_looping = true →
      (process_tick s now).1.current_frame_ts = 0 ∧
      (process_tick s now).1.playback_finished = s.playback_finished) ∧
    (s.is_looping = false →
      (process_tick s now).1.playback_finished = true ∧
      (process_tick s now).1.current_frame_ts = s.current_frame_ts) := by
  unfold process_tick RingBuffer.get update_textures
  simp only [hbuf]
  simp [hdue, hdur]
  cases hl : s.is_looping <;> simp

/-- Witness for the amended claim C3: a looping session at the duration
boundary. -/
theorem c3_end_of_stream_amended_witness :
    (process_tick
        { baseState with
          is_looping := true
          total_duration := 0
          frames_buffer :=
            { data := [{ y_data := [7], uv_data := [8], timestamp_us := 0 }],
              last_added_index := some 0, capacity := 3 } } 4).2 =
      some { y_data := [7], uv_data := [8], timestamp_us := 0 } ∧
    (process_tick
        { baseState with
          is_looping := true
          total_duration := 0
          frames_buffer :=
            { data := [{ y_data := [7], uv_data := [8], timestamp_us := 0 }],
              last_added_index := some 0, capacity := 3 } } 4).1.current_frame_ts = 0 := by
  have h := c3_end_of_stream_amended
    { baseState with
      is_looping := true
      total_duration := 0
      frames_buffer :=
        { data := [{ y_data := [7], uv_data := [8], timestamp_us := 0 }],
          last_added_index := some 0, capacity := 3 } } 4
    { y_data := [7], uv_data := [8], timestamp_us := 0 } []
    rfl (by decide) (by decide)
  exact ⟨h.1, (h.2.2.2.2.1 rfl).1⟩

/-- Claim C4: (i) a tick handled while the decoding state is `Finished` and
the ring buffer holds fewer than 10 frames issues exactly one chunk request
(`decode_next_video_chunk` is called once, the returned flag is `true`) and
transitions the state to `Decoding`; (ii) a tick handled while the state is
`Decoding` issues no request and leaves the state `Decoding`. -/
theorem c4_watermark_scheduling (s : VideoState) (now : Nat) :
    (s.decoding_state = DecodingState.Finished → s.frames_buffer.data.length < 10 →
      ∃ s1 p, handle_tick s now = some (s1, p, true) ∧
        s1.decoding_state = DecodingState.Decoding) ∧
    (s.decoding_state = DecodingState.Decoding →
      ∃ s1 p, handle_tick s now = some (s1, p, false) ∧
        s1.decoding_state = DecodingState.Decoding) := by
  constructor
  · intro hf hlen
    have hds := process_tick_decoding_state s now
    have hlt : (process_tick s now).1.frames_buffer.data.length < 10 :=
      lt_of_le_of_lt (process_tick_length_le s now) hlen
    rw [hf] at hds
    unfold handle_tick should_request_decoding
    simp only [hf, true_or, if_pos, hds, decide_eq_true hlt]
    exact ⟨_, _, rfl, rfl⟩
  · intro hd
    have hds := process_tick_decoding_state s now
    rw [hd] at hds
    unfold handle_tick should_request_decoding
    by_cases hlen : 5 < s.frames_buffer.data.length
    · simp only [hd, hlen, and_true, true_and, or_true, if_pos, hds]
      exact ⟨_, _, rfl, hds⟩
    · simp only [hd, hlen, and_false, false_and, or_false, if_neg, reduceCtorEq,
        not_false_eq_true]
      exact ⟨_, _, rfl, hd⟩

/-- Witness for claim C4: part (i) at a `Finished` state with an empty ring
buffer, tick at 7 microseconds. -/
theorem c4_watermark_scheduling_witness :
    ∃ s1 p, handle_tick baseState 7 = some (s1, p, true) ∧
      s1.decoding_state = DecodingState.Decoding :=
  (c4_watermark_scheduling baseState 7).1 rfl (by decide)

/-- Helper: draining returns exactly the queue contents, given enough fuel. -/
theorem drainLoop_eq_data :
    ∀ (fuel : Nat) (rb : RingBuffer), rb.data.length ≤ fuel →
      RingBuffer.drainLoop fuel rb = rb.data := by
  intro fuel
  induction fuel with
  | zero =>
    intro rb h
    have : rb.data = [] := List.length_eq_zero.mp (Nat.le_zero.mp h)
    simp [RingBuffer.drainLoop, this]
  | succ n ih =>
    intro rb h
    cases hd : rb.data with
    | nil => simp [RingBuffer.drainLoop, RingBuffer.get, hd]
    | cons f rest =>
      have hlen : rest.length ≤ n := by
        rw [hd] at h
        simpa using h
      have hrec := ih ⟨rest, rb.last_added_index, rb.capacity⟩ hlen
      simp only [RingBuffer.drainLoop, RingBuffer.get, hd]
      rw [hrec]

/-- Helper: `drain` pops everything in queue order. -/
theorem drain_eq_data (rb : RingBuffer) : rb.drain = rb.data :=
  drainLoop_eq_data rb.data.length rb le_rfl

/-- Helper: pushing a list appends it to the queue in order. -/
theorem pushAll_data :
    ∀ (l : List VideoFrame) (rb : RingBuffer),
      (rb.pushAll l).data = rb.data ++ l := by
  intro l
  induction l with
  | nil => intro rb; simp [RingBuffer.pushAll]
  | cons f rest ih =>
    intro rb
    have : rb.pushAll (f :: rest) = (rb.push f).pushAll rest := rfl
    rw [this, ih, RingBuffer.push]
    simp

/-- Claim C8: the ring buffer is strictly FIFO with unconditional push.
`push` always appends at the tail of the queue — for EVERY buffer, including
one already holding `capacity` or more frames (the first conjunct has no
capacity hypothesis; capacity is never consulted).  Pushing a sequence of
frames onto any buffer and then popping until empty returns the old contents
followed by exactly that sequence in push order, and in particular a
non-decreasing-timestamp push sequence onto an empty buffer is popped with
timestamps never decreasing between consecutive pops. -/
theorem c8_fifo_order (rb : RingBuffer) (f : VideoFrame) (l : List VideoFrame) :
    (rb.push f).data = rb.data ++ [f] ∧
    (rb.pushAll l).drain = rb.data ++ l ∧
    (rb.data = [] →
      List.Chain' (fun a b => a.timestamp_us ≤ b.timestamp_us) l →
      List.Chain' (fun a b => a.timestamp_us ≤ b.timestamp_us) ((rb.pushAll l).drain)) := by
  refine ⟨by simp [RingBuffer.push], ?_, ?_⟩
  · rw [drain_eq_data, pushAll_data]
  · intro hnil hchain
    rw [drain_eq_data, pushAll_data, hnil, List.nil_append]
    exact hchain

/-- Witness for claim C8: a buffer already over its capacity (capacity 1,
two queued frames) still accepts a push at the tail, and a two-frame
non-decreasing push sequence is popped in order. -/
theorem c8_fifo_order_witness :
    (RingBuffer.push
        { data := [{ y_data := [], uv_data := [], timestamp_us := 1 },
                   { y_data := [], uv_data := [], timestamp_us := 2 }],
          last_added_index := some 1, capacity := 1 }
        { y_data := [], uv_data := [], timestamp_us := 3 }).data =
      [{ y_data := [], uv_data := [], timestamp_us := 1 },
       { y_data := [], uv_data := [], timestamp_us := 2 }] ++
      [{ y_data := [], uv_data := [], timestamp_us := 3 }] ∧
    (RingBuffer.pushAll { data := [], last_added_index := none, capacity := 1 }
        [{ y_data := [], uv_data := [], timestamp_us := 4 },
         { y_data := [], uv_data := [], timestamp_us := 9 }]).drain =
      [] ++ [{ y_data := [], uv_data := [], timestamp_us := 4 },
             { y_data := [], uv_data := [], timestamp_us := 9 }] ∧
    List.Chain' (fun a b => a.timestamp_us ≤ b.timestamp_us)
      ((RingBuffer.pushAll { data := [], last_added_index := none, capacity := 1 }
        [{ y_data := [], uv_data := [], timestamp_us := 4 },
         { y_data := [], uv_data := [], timestamp_us := 9 }]).drain) := by
  have h := c8_fifo_order
    { data := [{ y_data := [], uv_data := [], timestamp_us := 1 },
               { y_data := [], uv_data := [], timestamp_us := 2 }],
      last_added_index := some 1, capacity := 1 }
    { y_data := [], uv_data := [], timestamp_us := 3 } []
  have h2 := c8_fifo_order { data := [], last_added_index := none, capacity := 1 }
    { y_data := [], uv_data := [], timestamp_us := 3 }
    [{ y_data := [], uv_data := [], timestamp_us := 4 },
     { y_data := [], uv_data := [], timestamp_us := 9 }]
  exact ⟨h.1, h2.2.1, h2.2.2 rfl (by simp)⟩

/-- Helper: the ceiling of a rational `m / d` of naturals is the rounded-up
natural division `(m + d - 1) / d`. -/
theorem ceil_natCast_div (m d : Nat) (hd : 0 < d) :
    Int.ceil ((m : ℚ) / (d : ℚ)) = (((m + d - 1) / d : Nat) : ℤ) := by
  have hq : (0 : ℚ) < (d : ℚ) := by exact_mod_cast hd
  have h1 : ((m + d - 1) / d) * d ≤ m + d - 1 := Nat.div_mul_le_self _ _
  have h2 : m ≤ ((m + d - 1) / d) * d := by
    have hmod := Nat.div_add_mod (m + d - 1) d
    have hcomm : d * ((m + d - 1) / d) = ((m + d - 1) / d) * d := Nat.mul_comm _ _
    have hlt := Nat.mod_lt (m + d - 1) hd
    omega
  have hc : (((m + d - 1) / d : Nat) : ℚ) * (d : ℚ) + 1 ≤ (m : ℚ) + (d : ℚ) := by
    exact_mod_cast (by omega : ((m + d - 1) / d) * d + 1 ≤ m + d)
  rw [Int.ceil_eq_iff]
  constructor
  · rw [lt_div_iff₀ hq, Int.cast_natCast, sub_mul, one_mul]
    linarith
  · rw [div_le_iff₀ hq, Int.cast_natCast]
    exact_mod_cast h2

/-- Helper: closed natural-number form of the capacity the code computes:
the double rounding `ceil(ceil(fr * 0.5) * 1.2)`. -/
theorem resize_capacity_eq (fr : Nat) :
    resize_capacity fr = (6 * ((fr + 1) / 2) + 4) / 5 := by
  unfold resize_capacity
  rw [show ((CHUNK_DURATION_US : ℚ) / 1000000) = 1 / 2 by norm_num [CHUNK_DURATION_US]]
  rw [show (fr : ℚ) * (1 / 2) = (fr : ℚ) / ((2 : ℕ) : ℚ) by push_cast; ring]
  rw [ceil_natCast_div fr 2 (by norm_num)]
  rw [show fr + 2 - 1 = fr + 1 from rfl]
  rw [show (((((fr + 1) / 2 : Nat) : ℤ) : ℚ) * (1.2 : ℚ)) =
      ((6 * ((fr + 1) / 2) : Nat) : ℚ) / ((5 : ℕ) : ℚ) by
    rw [show (1.2 : ℚ) = 6 / 5 by norm_num]
    simp only [Int.cast_natCast, Nat.cast_mul, Nat.cast_ofNat]
    ring]
  rw [ceil_natCast_div _ 5 (by norm_num), Int.toNat_natCast]
  omega

/-- Helper: closed natural-number form of the formula stated by the spec:
the single rounding `ceil(fr * 0.5 * 1.2) = ceil(0.6 * fr)`. -/
theorem spec_capacity_eq (fr : Nat) :
    spec_capacity fr = (3 * fr + 4) / 5 := by
  unfold spec_capacity
  rw [show ((CHUNK_DURATION_US : ℚ) / 1000000) = 1 / 2 by norm_num [CHUNK_DURATION_US]]
  rw [show (fr : ℚ) * (1 / 2) * (1.2 : ℚ) = ((3 * fr : Nat) : ℚ) / ((5 : ℕ) : ℚ) by
    rw [show (1.2 : ℚ) = 6 / 5 by norm_num]
    simp only [Nat.cast_mul, Nat.cast_ofNat]
    ring]
  rw [ceil_natCast_div _ 5 (by norm_num), Int.toNat_natCast]
  omega

/-- Claim C9, counterexample: for frame rate 5, decoder initialization
computes a capacity of 4 (`ceil(ceil(5 * 0.5) * 1.2) = ceil(3 * 1.2) = 4`),
while the formula the claim states, `ceil(5 * 0.5 * 1.2) = ceil(3)`, is 3.
So the computed capacity target does not equal
`ceil(frame_rate * chunk_duration_seconds * 1.2)` for every frame rate. -/
theorem c9_capacity_formula_mismatch :
    (handle_decoding_init baseState 4 2 5 1000000).frames_buffer.capacity = 4 ∧
    spec_capacity 5 = 3 ∧
    (handle_decoding_init baseState 4 2 5 1000000).frames_buffer.capacity ≠ spec_capacity 5 := by
  have h1 : (handle_decoding_init baseState 4 2 5 1000000).frames_buffer.capacity =
      resize_capacity 5 := rfl
  rw [h1, resize_capacity_eq, spec_capacity_eq]
  refine ⟨by norm_num, by norm_num, by norm_num⟩

/-- Claim C9, amended: the capacity target computed at decoder
initialization is `ceil(ceil(frame_rate * chunk_duration_seconds) * 1.2)` —
the per-chunk frame estimate is rounded up to a whole number of frames
BEFORE the 20 percent margin is applied.  This double rounding is never
below the single rounding `ceil(frame_rate * chunk_duration_seconds * 1.2)`
the claim states, and agrees with it for every even frame rate (chunk
duration is 0.5 s); for odd frame rates the two can differ (4 versus 3 at 5
frames per second, the counterexample), though not for all of them (at 7
both give 5). -/
theorem c9_capacity_amended (s : VideoState) (w h fr dur : Nat) :
    (handle_decoding_init s w h fr dur).frames_buffer.capacity = resize_capacity fr ∧
    resize_capacity fr = (6 * ((fr + 1) / 2) + 4) / 5 ∧
    spec_capacity fr ≤ resize_capacity fr ∧
    (fr % 2 = 0 → resize_capacity fr = spec_capacity fr) := by
  refine ⟨rfl, resize_capacity_eq fr, ?_, fun he => ?_⟩ <;>
    rw [resize_capacity_eq, spec_capacity_eq] <;> omega

/-- Witness for the amended claim C9 at frame rate 30 (even): the computed
capacity is at least the single-rounding formula and, 30 being even, agrees
with it. -/
theorem c9_capacity_amended_witness :
    (handle_decoding_init baseState 4 2 30 1).frames_buffer.capacity = resize_capacity 30 ∧
    resize_capacity 30 = (6 * ((30 + 1) / 2) + 4) / 5 ∧
    spec_capacity 30 ≤ resize_capacity 30 ∧
    resize_capacity 30 = spec_capacity 30 :=
  ⟨(c9_capacity_amended baseState 4 2 30 1).1,
   (c9_capacity_amended baseState 4 2 30 1).2.1,
   (c9_capacity_amended baseState 4 2 30 1).2.2.1,
   (c9_capacity_amended baseState 4 2 30 1).2.2.2 rfl⟩

/-- Big-endian encoding of `n` into `k` bytes.  This is the wire-format
writer side, used to state which byte streams are exact concatenations of
complete frame groups. -/
def toBE (n : Nat) : Nat → List Nat
  | 0 => []
  | k + 1 => toBE (n / 256) k ++ [n % 256]

/-- One complete frame group of the wire format, in structured form:
`timestamp:u64BE | y_stride:u32BE | uv_stride:u32BE | payload_len:u32BE |
payload`. -/
structure FrameGroup where
  ts : Nat
  y_stride : Nat
  uv_stride : Nat
  payload : List Nat
deriving DecidableEq

/-- Serializes a frame group into its wire format. -/
def encodeGroup (g : FrameGroup) : List Nat :=
  toBE g.ts 8 ++
    (toBE g.y_stride 4 ++ (toBE g.uv_stride 4 ++ (toBE g.payload.length 4 ++ g.payload)))

/-- The frame the demultiplexer builds for a group: the timestamp verbatim
from the header and the planes produced by `split_nv12_data` on the two
freshly acquired (zero) buffers.  The `none` fallback is unreachable for
well-formed groups. -/
def frameOf (w h : Nat) (g : FrameGroup) : VideoFrame :=
  match split_nv12_data g.payload w h g.y_stride g.uv_stride
      (List.replicate (w * h) 0) (List.replicate ((w / 2) * (h / 2)) 0) with
  | some (y, uv) => { y_data := y, uv_data := uv, timestamp_us := g.ts }
  | none => { y_data := [], uv_data := [], timestamp_us := g.ts }

/-- A frame group is well formed for dimensions `w`, `h` when its header
fields fit their wire widths and its payload is long enough for the
stride-based plane extraction to succeed (every luma and chroma row slice in
bounds, chroma rows of even length). -/
abbrev wellFormedGroup (w h : Nat) (g : FrameGroup) : Prop :=
  g.ts < 256 ^ 8 ∧ g.y_stride < 256 ^ 4 ∧ g.uv_stride < 256 ^ 4 ∧
  g.payload.length < 256 ^ 4 ∧
  (split_nv12_data g.payload w h g.y_stride g.uv_stride
      (List.replicate (w * h) 0) (List.replicate ((w / 2) * (h / 2)) 0)).isSome = true

/-- Helper: `toBE` produces exactly `k` bytes. -/
theorem toBE_length (n k : Nat) : (toBE n k).length = k := by
  induction k generalizing n with
  | zero => rfl
  | succ k ih => simp [toBE, ih]

/-- Helper: `beBytes` peels a final byte. -/
theorem beBytes_append_singleton (l : List Nat) (b : Nat) :
    beBytes (l ++ [b]) = beBytes l * 256 + b := by
  simp [beBytes, List.foldl_append]

/-- Helper: big-endian round trip for values fitting in `k` bytes. -/
theorem beBytes_toBE (k n : Nat) (h : n < 256 ^ k) : beBytes (toBE n k) = n := by
  induction k generalizing n with
  | zero =>
    have : n = 0 := by simpa using h
    simp [this, toBE, beBytes]
  | succ k ih =>
    have hdiv : n / 256 < 256 ^ k := by
      rw [Nat.div_lt_iff_lt_mul (by norm_num)]
      calc n < 256 ^ (k + 1) := h
        _ = 256 ^ k * 256 := by rw [Nat.pow_succ]
    rw [toBE, beBytes_append_singleton, ih _ hdiv]
    omega

/-- Helper: a serialized group is its 20-byte header plus the payload. -/
theorem encodeGroup_length (g : FrameGroup) :
    (encodeGroup g).length = 20 + g.payload.length := by
  simp [encodeGroup, toBE_length]
  omega

/-- Helper: one unfolding of `demuxLoop` on a nonempty stream. -/
theorem demuxLoop_cons (w h fuel : Nat) (bytes : List Nat) (hne : bytes ≠ [])
    (rb : RingBuffer) (pool : List (List Nat)) (acq : Nat) :
    demuxLoop w h (fuel + 1) bytes rb pool acq =
      if 20 ≤ bytes.length ∧ 20 + beBytes ((bytes.drop 16).take 4) ≤ bytes.length then
        match split_nv12_data ((bytes.drop 20).take (beBytes ((bytes.drop 16).take 4)))
            w h (beBytes ((bytes.drop 8).take 4)) (beBytes ((bytes.drop 12).take 4))
            (acquire pool (w * h)).1
            (acquire (acquire pool (w * h)).2 ((w / 2) * (h / 2))).1 with
        | none => none
        | some (y, uv) =>
          demuxLoop w h fuel (bytes.drop (20 + beBytes ((bytes.drop 16).take 4)))
            (rb.push { y_data := y, uv_data := uv, timestamp_us := beBytes (bytes.take 8) })
            (acquire (acquire pool (w * h)).2 ((w / 2) * (h / 2))).2
            (acq + 2)
      else none := by
  cases bytes with
  | nil => exact absurd rfl hne
  | cons b bs => rfl

/-- Helper: the demultiplexer loop parses every complete well-formed group of
a concatenated stream, pushing one frame per group in stream order, acquiring
two pool buffers per group, given at least as much fuel as there are bytes. -/
theorem demuxLoop_complete_groups (w h : Nat) (gs : List FrameGroup) :
    ∀ (fuel : Nat) (rb : RingBuffer) (pool : List (List Nat)) (acq : Nat),
      (∀ g ∈ gs, wellFormedGroup w h g) →
      (List.flatten (gs.map encodeGroup)).length ≤ fuel →
      ∃ pool2, demuxLoop w h fuel (List.flatten (gs.map encodeGroup)) rb pool acq =
        some (rb.pushAll (gs.map (frameOf w h)), pool2, acq + 2 * gs.length) := by
  induction gs with
  | nil =>
    intro fuel rb pool acq _ _
    refine ⟨pool, ?_⟩
    cases fuel <;> simp [demuxLoop, RingBuffer.pushAll]
  | cons g gs ih =>
    intro fuel rb pool acq hwf hfuel
    obtain ⟨hts, hys, hus, hpl, hsplit⟩ := hwf g (List.mem_cons_self g gs)
    set R := List.flatten (gs.map encodeGroup) with hR
    have hflat : List.flatten ((g :: gs).map encodeGroup) = encodeGroup g ++ R := by
      simp [hR]
    have hblen : (encodeGroup g ++ R).length = 20 + g.payload.length + R.length := by
      rw [List.length_append, encodeGroup_length]
    have hb : encodeGroup g ++ R =
        toBE g.ts 8 ++ (toBE g.y_stride 4 ++ (toBE g.uv_stride 4 ++
          (toBE g.payload.length 4 ++ (g.payload ++ R)))) := by
      simp [encodeGroup, List.append_assoc]
    rw [hflat] at hfuel ⊢
    have hfpos : 20 + g.payload.length + R.length ≤ fuel := by
      rw [← hblen]; exact hfuel
    cases fuel with
    | zero => omega
    | succ fuel =>
      have hne : encodeGroup g ++ R ≠ [] := by
        intro hcon
        have := congrArg List.length hcon
        rw [hblen] at this
        simp at this
      rw [demuxLoop_cons w h fuel _ hne]
      have e8 : (encodeGroup g ++ R).drop 8 =
          toBE g.y_stride 4 ++ (toBE g.uv_stride 4 ++
            (toBE g.payload.length 4 ++ (g.payload ++ R))) := by
        rw [hb]; exact List.drop_left' (toBE_length _ _)
      have e12 : (encodeGroup g ++ R).drop 12 =
          toBE g.uv_stride 4 ++ (toBE g.payload.length 4 ++ (g.payload ++ R)) := by
        have h1 : (12 : Nat) = 8 + 4 := rfl
        rw [h1, ← List.drop_drop, e8]
        exact List.drop_left' (toBE_length _ _)
      have e16 : (encodeGroup g ++ R).drop 16 =
          toBE g.payload.length 4 ++ (g.payload ++ R) := by
        have h1 : (16 : Nat) = 12 + 4 := rfl
        rw [h1, ← List.drop_drop, e12]
        exact List.drop_left' (toBE_length _ _)
      have e20 : (encodeGroup g ++ R).drop 20 = g.payload ++ R := by
        have h1 : (20 : Nat) = 16 + 4 := rfl
        rw [h1, ← List.drop_drop, e16]
        exact List.drop_left' (toBE_length _ _)
      have hts8 : beBytes ((encodeGroup g ++ R).take 8) = g.ts := by
        rw [hb, List.take_left' (toBE_length _ _)]
        exact beBytes_toBE 8 _ hts
      have hys4 : beBytes (((encodeGroup g ++ R).drop 8).take 4) = g.y_stride := by
        rw [e8, List.take_left' (toBE_length _ _)]
        exact beBytes_toBE 4 _ hys
      have hus4 : beBytes (((encodeGroup g ++ R).drop 12).take 4) = g.uv_stride := by
        rw [e12, List.take_left' (toBE_length _ _)]
        exact beBytes_toBE 4 _ hus
      have hfl4 : beBytes (((encodeGroup g ++ R).drop 16).take 4) = g.payload.length := by
        rw [e16, List.take_left' (toBE_length _ _)]
        exact beBytes_toBE 4 _ hpl
      have hpay : ((encodeGroup g ++ R).drop 20).take g.payload.length = g.payload := by
        rw [e20]
        exact List.take_left' rfl
      have hrest : (encodeGroup g ++ R).drop (20 + g.payload.length) = R := by
        rw [← List.drop_drop, e20]
        exact List.drop_left' rfl
      rw [hfl4, hts8, hys4, hus4, hpay, hrest]
      rw [if_pos ⟨by omega, by rw [hblen]; omega⟩]
      simp only [acquire]
      obtain ⟨⟨y, uv⟩, hyuv⟩ := Option.isSome_iff_exists.mp hsplit
      rw [hyuv]
      have hfo : frameOf w h g = { y_data := y, uv_data := uv, timestamp_us := g.ts } := by
        unfold frameOf
        rw [hyuv]
      have hfuel2 : R.length ≤ fuel := by omega
      obtain ⟨pool2, hrec⟩ :=
        ih fuel (rb.push (frameOf w h g)) pool.tail.tail (acq + 2)
          (fun g2 hg2 => hwf g2 (List.mem_cons_of_mem g hg2)) hfuel2
      refine ⟨pool2, ?_⟩
      show demuxLoop w h fuel R
          (rb.push { y_data := y, uv_data := uv, timestamp_us := g.ts }) pool.tail.tail
          (acq + 2) =
        some (rb.pushAll (List.map (frameOf w h) (g :: gs)), pool2, acq + 2 * (g :: gs).length)
      rw [← hfo, hrec]
      have hacc : acq + 2 + 2 * gs.length = acq + 2 * (g :: gs).length := by
        simp only [List.length_cons]
        omega
      rw [hacc]
      rfl

/-- Claim C6, counterexample: a stream consisting of a single stray byte is
an incomplete trailing group (fewer than 20 header bytes).  The parse loop
enters its body (`cursor < len`) and slices `frame_group[0..8]` out of
bounds: the handler panics (modelled `none`) instead of handling the
incomplete group without abort. -/
theorem c6_incomplete_group_aborts :
    demux 4 2 [0] { data := [], last_added_index := none, capacity := 0 } [] 0 = none := by
  rfl

/-- Claim C6, amended: every byte stream that is an exact concatenation of
complete well-formed frame groups (20-byte big-endian header, the declared
number of payload bytes, payload long enough for the stride-based plane
extraction) is fully parsed: one `VideoFrame` per group, pushed in stream
order with the timestamp taken verbatim from each header (`frameOf`), two
pool buffers acquired per group.  However, a stream with an incomplete
trailing group is NOT handled gracefully: the loop slices past the end of
the stream and panics (see the counterexample); the accesses are
bounds-checked, so no out-of-bounds memory read occurs, but the handler
aborts instead of skipping the incomplete group. -/
theorem c6_complete_groups_parsed (w h : Nat) (gs : List FrameGroup)
    (rb : RingBuffer) (pool : List (List Nat)) (acq : Nat)
    (hwf : ∀ g ∈ gs, wellFormedGroup w h g) :
    ∃ pool2, demux w h (List.flatten (gs.map encodeGroup)) rb pool acq =
      some (rb.pushAll (gs.map (frameOf w h)), pool2, acq + 2 * gs.length) :=
  demuxLoop_complete_groups w h gs (List.flatten (gs.map encodeGroup)).length
    rb pool acq hwf le_rfl

/-- Witness for the amended claim C6: a two-group stream (timestamps 1000000
and 1500000) parses to exactly two frames with four buffers acquired. -/
theorem c6_complete_groups_parsed_witness :
    ∃ pool2, demux 4 2
      (List.flatten
        ([{ ts := 1000000, y_stride := 4, uv_stride := 4,
            payload := [1, 2, 3, 4, 5, 6, 7, 8, 9, 10, 11, 12] },
          { ts := 1500000, y_stride := 4, uv_stride := 4,
            payload := [12, 11, 10, 9, 8, 7, 6, 5, 4, 3, 2, 1] }].map encodeGroup))
      { data := [], last_added_index := none, capacity := 0 } [] 0 =
    some (RingBuffer.pushAll { data := [], last_added_index := none, capacity := 0 }
      ([{ ts := 1000000, y_stride := 4, uv_stride := 4,
          payload := [1, 2, 3, 4, 5, 6, 7, 8, 9, 10, 11, 12] },
        { ts := 1500000, y_stride := 4, uv_stride := 4,
          payload := [12, 11, 10, 9, 8, 7, 6, 5, 4, 3, 2, 1] }].map (frameOf 4 2)),
      pool2, 4) :=
  c6_complete_groups_parsed 4 2
    [{ ts := 1000000, y_stride := 4, uv_stride := 4,
       payload := [1, 2, 3, 4, 5, 6, 7, 8, 9, 10, 11, 12] },
     { ts := 1500000, y_stride := 4, uv_stride := 4,
       payload := [12, 11, 10, 9, 8, 7, 6, 5, 4, 3, 2, 1] }]
    { data := [], last_added_index := none, capacity := 0 } [] 0 (by decide)
